import Mathlib

/-!
Verification of the DMARC report processing pipeline (`dmarc_processor.py`):
a shallow embedding of the archive unwrapper (`_extract_files` / `_find_xml_files`),
the XML report parser (`_parse_dmarc_xml`), the analytics aggregator
(`_generate_analytics` / `_identify_threats`) and the batch entry point
(`process_files`), together with theorems about the spec-level properties.

Modelling conventions:
* XML documents are modelled as an inductive tree (`Xml`); `ElementTree`
  lookups (`find`, `findall`, `.text`) become functions over that tree.
  Python truthiness of elements (an element is falsy when it has no
  children) and of strings (empty or `None` is falsy) is modelled
  explicitly because the source relies on `or`-chaining of lookups.
  A lookup with a namespace prefix against an empty prefix map raises
  `SyntaxError` in `ElementTree`; this is modelled as an `Except.error`.
* Python exceptions are modelled with `Except String`; the batch loop
  catches them exactly where the source catches them.
* Python `int` is `Int`; machine floats produced by
  `round(x / y * 100, 2)` are modelled exactly as integer hundredths of a
  percent (the value `66.67` is carried as `6667`), which carries the same
  information as the rounded value while staying kernel-computable.  The
  rounding itself uses round-half-up on exact rationals; a bridging lemma
  relates the scaled integer to the rational `round(x * 100) / 100`.
* The local-timezone `datetime.fromtimestamp(...).strftime(%Y-%m-%d)` is
  modelled as the UTC civil date of the timestamp; no claim depends on the
  timezone offset.
* The filesystem is a directory listing `List (String × FileContent)` in
  creation order; `os.walk` enumeration is modelled by that order, and
  archive extraction failures are modelled as extracting nothing.
-/

namespace DMARC

/-! ## String helpers (kernel-computable, over character lists) -/

/-- `str.endswith(suffix)` on Python strings. -/
def strEndsWith (s suffix : String) : Bool :=
  List.isSuffixOf suffix.data s.data

/-- `str.startswith(prefix)` on Python strings. -/
def strStartsWith (s pre : String) : Bool :=
  List.isPrefixOf pre.data s.data

/-- `s[:-n]` on Python strings (drop the last `n` characters). -/
def strDropRight (s : String) (n : Nat) : String :=
  String.mk (s.data.take (s.data.length - n))

/-- Helper for `basename`: scan the characters, restarting after each slash. -/
def basenameAux : List Char → List Char → List Char
  | cur, [] => cur
  | cur, c :: rest => if c = '/' then basenameAux [] rest else basenameAux (cur ++ [c]) rest

/-- `os.path.basename` (the component after the last slash). -/
def basename (p : String) : String :=
  String.mk (basenameAux [] p.data)

/-- Characters stripped by Python `int()` before parsing. -/
def isSpaceChar (c : Char) : Bool :=
  c == ' ' || c == '\t' || c == '\n' || c == '\r'

/-- Strip leading and trailing whitespace from a character list. -/
def trimChars (cs : List Char) : List Char :=
  ((cs.dropWhile isSpaceChar).reverse.dropWhile isSpaceChar).reverse

/-- Value of a non-empty all-digit character list, `none` otherwise. -/
def digitsVal (cs : List Char) : Option Nat :=
  if cs.isEmpty then none
  else
    cs.foldl
      (fun acc c =>
        match acc with
        | none => none
        | some n => if c.isDigit then some (n * 10 + (c.toNat - 48)) else none)
      (some 0)

/-- Python `int(s)` on a string: optional sign, decimal digits, surrounding
whitespace allowed; anything else raises `ValueError`. -/
def pyIntOfString (s : String) : Except String Int :=
  match trimChars s.data with
  | '-' :: rest =>
    match digitsVal rest with
    | some n => Except.ok (-(n : Int))
    | none => Except.error ("ValueError: invalid literal for int: " ++ s)
  | '+' :: rest =>
    match digitsVal rest with
    | some n => Except.ok (n : Int)
    | none => Except.error ("ValueError: invalid literal for int: " ++ s)
  | other =>
    match digitsVal other with
    | some n => Except.ok (n : Int)
    | none => Except.error ("ValueError: invalid literal for int: " ++ s)

/-! ## XML model (`xml.etree.ElementTree`) -/

/-- An XML element: tag, optional text, child elements.  `ElementTree`
stores a namespaced tag as `\x7buri\x7dlocalname`, which we keep verbatim in
the `tag` string. -/
inductive Xml where
  | elem (tag : String) (text : Option String) (children : List Xml)

def Xml.tag : Xml → String
  | .elem t _ _ => t

def Xml.text : Xml → Option String
  | .elem _ tx _ => tx

def Xml.children : Xml → List Xml
  | .elem _ _ c => c

/-- `element.find(tag)`: first direct child with the given tag. -/
def Xml.findChild (e : Xml) (t : String) : Option Xml :=
  e.children.find? (fun c => c.tag == t)

/-- `element.findall(tag)`: all direct children with the given tag. -/
def Xml.findAll (e : Xml) (t : String) : List Xml :=
  e.children.filter (fun c => c.tag == t)

/-- The namespace URI used by `_parse_dmarc_xml`. -/
def dmarcNS : String := "urn:ietf:params:xml:ns:dmarc-2.0"

/-- The fully-qualified tag `\x7burn:...\x7dt` that `find('ns:t', ns)` resolves to. -/
def nsTag (t : String) : String := "\x7b" ++ dmarcNS ++ "\x7d" ++ t

/-- Python truthiness of an `Element`-or-`None` value: `None` is falsy and an
element with no children is falsy (`ElementTree` deprecated but working
behaviour). -/
def truthyElem : Option Xml → Bool
  | none => false
  | some e => !e.children.isEmpty

/-- Python truthiness of a `str`-or-`None` value. -/
def truthyStr : Option String → Bool
  | none => false
  | some s => !s.data.isEmpty

/-! ## Report data model -/

structure Record where
  source_ip : Option String
  count : Int
  disposition : Option String
  dkim : Option String
  spf : Option String
  header_from : Option String
deriving DecidableEq, Repr

structure Report where
  org_name : Option String
  report_id : Option String
  domain : Option String
  policy : Option String
  date_begin : Int
  date_end : Int
  records : List Record
deriving DecidableEq, Repr

/-! ## Parser (`_parse_dmarc_xml`)

`hasNs` is whether `root.tag.startswith('\x7b')`, in which case the source
builds `ns = \x7b'ns': dmarcNS\x7d`; otherwise `ns = \x7b\x7d` and any namespaced lookup
raises `SyntaxError: prefix 'ns' not found in prefix map`.  Each `findDual` /
`findTextDual` models the source pattern `lookup(tag) or lookup('ns:'+tag, ns)`
including the Python truthiness of the first operand; the element argument can
be `None` at the call sites, in which case Python raises `AttributeError`. -/

def syntaxErrMsg : String := "SyntaxError: prefix ns not found in prefix map"

def attributeErrMsg : String := "AttributeError: NoneType object has no attribute find"

/-- `element.find(t) or element.find('ns:'+t, ns)` where `element` may be `None`. -/
def findDual (hasNs : Bool) : Option Xml → String → Except String (Option Xml)
  | none, _ => Except.error attributeErrMsg
  | some e, t =>
    let plain := e.findChild t
    if truthyElem plain then Except.ok plain
    else if hasNs then Except.ok (e.findChild (nsTag t))
    else Except.error syntaxErrMsg

/-- `find_text(element, t) or find_text(element, 'ns:'+t, ns)` where `element`
may be `None` (the helper `find_text` calls `element.find`, raising
`AttributeError` on `None`). -/
def findTextDual (hasNs : Bool) : Option Xml → String → Except String (Option String)
  | none, _ => Except.error attributeErrMsg
  | some e, t =>
    let plain := (e.findChild t).bind Xml.text
    if truthyStr plain then Except.ok plain
    else if hasNs then Except.ok ((e.findChild (nsTag t)).bind Xml.text)
    else Except.error syntaxErrMsg

/-- `root.findall(t) or root.findall('ns:'+t, ns)`. -/
def findAllDual (hasNs : Bool) (e : Xml) (t : String) : Except String (List Xml) :=
  let plain := e.findAll t
  if !plain.isEmpty then Except.ok plain
  else if hasNs then Except.ok (e.findAll (nsTag t))
  else Except.error syntaxErrMsg

/-- `int(find_text(e, t) or find_text(e, 'ns:'+t, ns) or 0)`. -/
def intField (hasNs : Bool) (e : Option Xml) (t : String) : Except String Int := do
  let v ← findTextDual hasNs e t
  match v with
  | some s => if s.data.isEmpty then pure 0 else pyIntOfString s
  | none => pure 0

/-- The per-`record` block of `_parse_dmarc_xml` (lines 172-192). -/
def parseRecord (hasNs : Bool) (record : Xml) : Except String Record := do
  let row ← findDual hasNs (some record) "row"
  let source_ip ← findTextDual hasNs row "source_ip"
  let count ← intField hasNs row "count"
  let policy_eval ← findDual hasNs row "policy_evaluated"
  let disposition ← findTextDual hasNs policy_eval "disposition"
  let dkim ← findTextDual hasNs policy_eval "dkim"
  let spf ← findTextDual hasNs policy_eval "spf"
  let identifiers ← findDual hasNs (some record) "identifiers"
  let header_from ← findTextDual hasNs identifiers "header_from"
  pure { source_ip, count, disposition, dkim, spf, header_from }

/-- `_parse_dmarc_xml` on an already-parsed XML tree.  `Except.ok none` is the
"no metadata found" warning path (the source returns `None`); `Except.error`
models an exception propagating out of the function (re-raised at line 206). -/
def parseDmarcXml (root : Xml) : Except String (Option Report) := do
  let hasNs := strStartsWith root.tag "\x7b"
  let metadata ← findDual hasNs (some root) "report_metadata"
  match metadata with
  | none => pure none
  | some _ =>
    let org_name ← findTextDual hasNs metadata "org_name"
    let report_id ← findTextDual hasNs metadata "report_id"
    let date_range ← findDual hasNs metadata "date_range"
    let date_begin ← intField hasNs date_range "begin"
    let date_end ← intField hasNs date_range "end"
    let policy ← findDual hasNs (some root) "policy_published"
    let domain ← findTextDual hasNs policy "domain"
    let policy_p ← findTextDual hasNs policy "p"
    let recordElems ← findAllDual hasNs root "record"
    let records ← recordElems.mapM (parseRecord hasNs)
    pure (some { org_name, report_id, domain, policy := policy_p,
                 date_begin, date_end, records })

/-! ## Filesystem model, archive unwrapper (`_extract_files`, `_find_xml_files`)

A file's bytes are abstracted by `FileContent`: what each library call
(`ET.parse`, `zipfile.ZipFile`, `gzip.open`, `tarfile.open`) would make of
them.  A directory is its listing in creation order.  A library call applied
to content of the wrong kind raises, which `_extract_files` catches and turns
into "no files extracted from this input". -/

inductive FileContent where
  /-- Bytes that `ET.parse` reads as the given document. -/
  | xmlFile (doc : Xml)
  /-- A readable ZIP archive with the given entries. -/
  | zipEntries (entries : List (String × FileContent))
  /-- A readable TAR archive with the given entries. -/
  | tarEntries (entries : List (String × FileContent))
  /-- A readable GZIP stream whose decompressed bytes are `inner`. -/
  | gzInner (inner : FileContent)
  /-- Anything else (corrupt archive, non-XML bytes, ...). -/
  | opaqueBytes

/-- Write one file into a directory listing: overwrite in place or append. -/
def putFile : List (String × FileContent) → (String × FileContent) → List (String × FileContent)
  | [], e => [e]
  | f :: rest, e => if f.1 = e.1 then e :: rest else f :: putFile rest e

/-- `extractall`: write every entry into the directory. -/
def putFiles (dir entries : List (String × FileContent)) : List (String × FileContent) :=
  entries.foldl putFile dir

/-- `_find_xml_files`: every file in the directory whose name ends in `.xml`
(in directory-walk order, modelled as creation order).  The content is carried
along so the later parse phase can read the file. -/
def findXmlFiles (dir : List (String × FileContent)) : List (String × FileContent) :=
  dir.filter (fun f => strEndsWith f.1 ".xml")

/-- `_extract_files(file_path, extract_dir)`.  Returns the collected XML file
list and the directory contents after extraction.  The suffix dispatch is the
source's `endswith` chain (case-sensitive, `.gz` checked before `.tar`); a
library call on content of the wrong kind raises and is caught, returning the
`xml_files` collected so far (the empty list). -/
def extractFiles (path : String) (content : FileContent)
    (dir : List (String × FileContent)) :
    List (String × FileContent) × List (String × FileContent) :=
  let filename := basename path
  if strEndsWith filename ".zip" then
    match content with
    | .zipEntries entries =>
      let dir' := putFiles dir entries
      (findXmlFiles dir', dir')
    | _ => ([], dir)
  else if strEndsWith filename ".gz" then
    match content with
    | .gzInner inner =>
      let outName := strDropRight filename 3
      let dir' := putFile dir (outName, inner)
      if strEndsWith outName ".xml" then ([(outName, inner)], dir')
      else extractFiles outName inner dir'
    | _ => ([], dir)
  else if strEndsWith filename ".tar" || strEndsWith filename ".tar.gz" then
    match content with
    | .tarEntries entries =>
      let dir' := putFiles dir entries
      (findXmlFiles dir', dir')
    | _ => ([], dir)
  else if strEndsWith filename ".xml" then
    ([(path, content)], dir)
  else
    ([], dir)

/-- The extraction loop of `process_files` (lines 26-29): extract every input
in order into the shared session directory, concatenating the XML lists. -/
def batchExtract (inputs : List (String × FileContent))
    (dir0 : List (String × FileContent)) :
    List (String × FileContent) × List (String × FileContent) :=
  inputs.foldl
    (fun acc pc =>
      let step := extractFiles pc.1 pc.2 acc.2
      (acc.1 ++ step.1, step.2))
    ([], dir0)

/-- The XML file list collected across the whole batch. -/
def batchXmlFiles (inputs dir0 : List (String × FileContent)) :
    List (String × FileContent) :=
  (batchExtract inputs dir0).1

/-- What `_parse_dmarc_xml(xml_file)` does to one collected file:
`ET.parse` raises on non-XML bytes, otherwise the tree is parsed. -/
def fileReport : String × FileContent → Except String (Option Report)
  | (_, .xmlFile doc) => parseDmarcXml doc
  | (_, _) => Except.error "ParseError: not well-formed XML"

/-- The reports accumulated by the parse loop of `process_files` (lines
43-52): a file contributes iff its parse returns a truthy report; `None`
results and exceptions are skipped (exceptions are also recorded). -/
def reportsOf (xmls : List (String × FileContent)) : List Report :=
  xmls.filterMap
    (fun f =>
      match fileReport f with
      | .ok (some r) => some r
      | _ => none)

/-- The `parse_errors` list accumulated by the same loop. -/
def parseErrorsOf (xmls : List (String × FileContent)) : List String :=
  xmls.filterMap
    (fun f =>
      match fileReport f with
      | .error e => some ("Error parsing " ++ basename f.1 ++ ": " ++ e)
      | _ => none)

/-! ## Dates (`datetime.fromtimestamp(ts).strftime('%Y-%m-%d')`)

The deployment-local timezone is modelled as UTC; no claim depends on the
offset.  `civilFromDays` is the standard days-to-civil-date algorithm over
truncating integer division. -/

/-- Civil (year, month, day) of a day count since 1970-01-01. -/
def civilFromDays (z0 : Int) : Int × Int × Int :=
  let z := z0 + 719468
  let era := (if 0 ≤ z then z else z - 146096).tdiv 146097
  let doe := z - era * 146097
  let yoe := (doe - doe.tdiv 1460 + doe.tdiv 36524 - doe.tdiv 146096).tdiv 365
  let y := yoe + era * 400
  let doy := doe - (365 * yoe + yoe.tdiv 4 - yoe.tdiv 100)
  let mp := (5 * doy + 2).tdiv 153
  let d := doy - (153 * mp + 2).tdiv 5 + 1
  let m := mp + (if mp < 10 then 3 else -9)
  (y + (if m ≤ 2 then 1 else 0), m, d)

/-- Zero-pad a number to two digits, as `%m` / `%d` do. -/
def pad2 (n : Int) : String :=
  if n < 10 then "0" ++ toString n else toString n

/-- The `'%Y-%m-%d'` key derived from a Unix timestamp. -/
def dateStr (ts : Int) : String :=
  let c := civilFromDays (Int.fdiv ts 86400)
  toString c.1 ++ "-" ++ pad2 c.2.1 ++ "-" ++ pad2 c.2.2

/-! ## Aggregator (`_generate_analytics`)

Percent rates: the source computes `round(p / t * 100, 2)` on floats.  We
carry that value as an integer count of hundredths of a percent:
`pctTimes100 p t = round(p / t * 10000)` (round half-up on exact rationals),
so the float `66.67` is represented by `6667`.  The threat thresholds `80`
and `50` become `8000` and `5000` in this scale. -/

/-- `round(p / t * 100, 2)` scaled by 100, for `t > 0`: `⌊(10000p/t) + 1/2⌋`
computed as Euclidean integer division. -/
def pctTimes100 (p t : Int) : Int :=
  (20000 * p + t) / (2 * t)

/-- The spec's wording "x rounded to 2 decimal places", as an exact rational.
Modelled from the spec: round half-up to hundredths. -/
def specRound2 (x : ℚ) : ℚ :=
  (round (x * 100) : ℤ) / 100

/-- Per-IP accumulator (`ip_data` defaultdict value). -/
structure IPStats where
  count : Int
  dkim_pass : Int
  spf_pass : Int
  dmarc_pass : Int
deriving DecidableEq, Repr

/-- Per-day accumulator (`daily_stats` defaultdict value). -/
structure DayStats where
  total : Int
  dkim_pass : Int
  spf_pass : Int
  dmarc_pass : Int
deriving DecidableEq, Repr

/-- Insert-or-update on an insertion-ordered association list: the model of a
`defaultdict` entry update `m[k] = f(m.get(k, dflt))`.  A new key is appended
at the end, as Python dicts preserve insertion order. -/
def updAssoc {κ ν : Type} [DecidableEq κ] :
    List (κ × ν) → κ → ν → (ν → ν) → List (κ × ν)
  | [], k, dflt, f => [(k, f dflt)]
  | (k', v) :: rest, k, dflt, f =>
    if k' = k then (k, f v) :: rest else (k', v) :: updAssoc rest k dflt f

/-- Lookup with a default, the read side of a `defaultdict`. -/
def lookupD {κ ν : Type} [DecidableEq κ] : List (κ × ν) → κ → ν → ν
  | [], _, dflt => dflt
  | (k', v) :: rest, k, dflt => if k' = k then v else lookupD rest k dflt

/-- `set.add` preserving insertion order (Python set iteration order is
unspecified; the model fixes insertion order). -/
def setAdd (l : List (Option String)) (x : Option String) : List (Option String) :=
  if x ∈ l then l else l ++ [x]

/-- The mutable accumulators of `_generate_analytics` (lines 212-237). -/
structure AggState where
  total_messages : Int
  dkim_pass : Int
  dkim_fail : Int
  spf_pass : Int
  spf_fail : Int
  dmarc_pass : Int
  dmarc_fail : Int
  ip_data : List (Option String × IPStats)
  source_orgs : List (Option String × Int)
  domains : List (Option String)
  dispositions : List (Option String × Int)
  earliest : Option Int
  latest : Option Int
  daily_stats : List (String × DayStats)

def initState : AggState :=
  { total_messages := 0, dkim_pass := 0, dkim_fail := 0, spf_pass := 0,
    spf_fail := 0, dmarc_pass := 0, dmarc_fail := 0, ip_data := [],
    source_orgs := [], domains := [], dispositions := [], earliest := none,
    latest := none, daily_stats := [] }

/-- The record loop body (lines 251-294); `day` is the date key derived from
the owning report's `date_begin`. -/
def processRecord (day : String) (st : AggState) (r : Record) : AggState :=
  { st with
    total_messages := st.total_messages + r.count
    dkim_pass := st.dkim_pass + (if r.dkim == some "pass" then r.count else 0)
    dkim_fail := st.dkim_fail + (if r.dkim == some "pass" then 0 else r.count)
    spf_pass := st.spf_pass + (if r.spf == some "pass" then r.count else 0)
    spf_fail := st.spf_fail + (if r.spf == some "pass" then 0 else r.count)
    dmarc_pass := st.dmarc_pass +
      (if r.dkim == some "pass" && r.spf == some "pass" then r.count else 0)
    dmarc_fail := st.dmarc_fail +
      (if r.dkim == some "pass" && r.spf == some "pass" then 0 else r.count)
    ip_data := updAssoc st.ip_data r.source_ip ⟨0, 0, 0, 0⟩
      (fun s =>
        { count := s.count + r.count
          dkim_pass := s.dkim_pass + (if r.dkim == some "pass" then r.count else 0)
          spf_pass := s.spf_pass + (if r.spf == some "pass" then r.count else 0)
          dmarc_pass := s.dmarc_pass +
            (if r.dkim == some "pass" && r.spf == some "pass" then r.count else 0) })
    dispositions := updAssoc st.dispositions r.disposition 0 (· + r.count)
    daily_stats := updAssoc st.daily_stats day ⟨0, 0, 0, 0⟩
      (fun s =>
        { total := s.total + r.count
          dkim_pass := s.dkim_pass + (if r.dkim == some "pass" then r.count else 0)
          spf_pass := s.spf_pass + (if r.spf == some "pass" then r.count else 0)
          dmarc_pass := s.dmarc_pass +
            (if r.dkim == some "pass" && r.spf == some "pass" then r.count else 0) }) }

/-- The report loop body (lines 240-294). -/
def processReport (st : AggState) (rep : Report) : AggState :=
  let st :=
    { st with
      source_orgs := updAssoc st.source_orgs rep.org_name 0 (· + 1)
      domains := setAdd st.domains rep.domain
      earliest :=
        match st.earliest with
        | none => some rep.date_begin
        | some e => if rep.date_begin < e then some rep.date_begin else some e
      latest :=
        match st.latest with
        | none => some rep.date_end
        | some l => if l < rep.date_end then some rep.date_end else some l }
  rep.records.foldl (processRecord (dateStr rep.date_begin)) st

/-- The accumulation pass of `_generate_analytics` over all reports. -/
def aggState (reports : List Report) : AggState :=
  reports.foldl processReport initState

/-! ## Result assembly -/

/-- One entry of `ip_list` / `top_sources` (lines 297-315).
`compliance_rate` is in hundredths of a percent. -/
structure IPInfo where
  ip : Option String
  count : Int
  dkim_pass : Int
  spf_pass : Int
  dmarc_pass : Int
  compliance_rate : Int
  hostname : String
deriving DecidableEq, Repr

/-- Build one `ip_list` entry; `resolver` abstracts
`socket.gethostbyaddr`, whose failure yields the `'Unknown'` sentinel. -/
def mkIPInfo (resolver : Option String → Option String)
    (p : Option String × IPStats) : IPInfo :=
  { ip := p.1
    count := p.2.count
    dkim_pass := p.2.dkim_pass
    spf_pass := p.2.spf_pass
    dmarc_pass := p.2.dmarc_pass
    compliance_rate := if 0 < p.2.count then pctTimes100 p.2.dmarc_pass p.2.count else 0
    hostname := (resolver p.1).getD "Unknown" }

/-- The pre-sort `ip_list`, in first-encounter order of the source IPs. -/
def ipInfoList (resolver : Option String → Option String)
    (reports : List Report) : List IPInfo :=
  (aggState reports).ip_data.map (mkIPInfo resolver)

/-- Stable insertion into a list already sorted descending by `count`:
the element goes after every element with a strictly larger count and
before the first with a smaller-or-equal one. -/
def insertByCount (x : IPInfo) : List IPInfo → List IPInfo
  | [] => [x]
  | y :: l => if x.count < y.count then y :: insertByCount x l else x :: y :: l

/-- `ip_list.sort(key=lambda x: x['count'], reverse=True)`: a stable
descending sort, as Python's `list.sort` is stable. -/
def sortByCountDesc : List IPInfo → List IPInfo
  | [] => []
  | x :: l => insertByCount x (sortByCountDesc l)

/-- One timeline entry (lines 321-331); `compliance_rate` in hundredths. -/
structure TimelineEntry where
  date : String
  total : Int
  dkim_pass : Int
  spf_pass : Int
  dmarc_pass : Int
  compliance_rate : Int
deriving DecidableEq, Repr

def mkTimelineEntry (p : String × DayStats) : TimelineEntry :=
  { date := p.1
    total := p.2.total
    dkim_pass := p.2.dkim_pass
    spf_pass := p.2.spf_pass
    dmarc_pass := p.2.dmarc_pass
    compliance_rate := if 0 < p.2.total then pctTimes100 p.2.dmarc_pass p.2.total else 0 }

/-- Insertion into a list sorted ascending by date key. -/
def insertByDate (x : String × DayStats) :
    List (String × DayStats) → List (String × DayStats)
  | [] => [x]
  | y :: l => if x.1 < y.1 then x :: y :: l else y :: insertByDate x l

/-- `sorted(daily_stats.keys())` (the keys are pairwise distinct). -/
def sortDaily : List (String × DayStats) → List (String × DayStats)
  | [] => []
  | x :: l => insertByDate x (sortDaily l)

/-! ## Threats (`_identify_threats`) -/

structure Threat where
  level : String
  title : String
  description : String
deriving DecidableEq, Repr

/-- Python `str(x)` where `x` may be `None`. -/
def optStr : Option String → String
  | some s => s
  | none => "None"

/-- Render a hundredths-of-a-percent value the way Python prints the rounded
float: drop a trailing zero decimal, keep at least one decimal digit. -/
def fmtPct (n : Int) : String :=
  let whole := n.tdiv 100
  let frac := n - whole * 100
  if frac = 0 then toString whole ++ ".0"
  else if frac.emod 10 = 0 then toString whole ++ "." ++ toString (frac.tdiv 10)
  else toString whole ++ "." ++ pad2 frac

def lowComplianceThreat (q : Int) : Threat :=
  { level := "warning"
    title := "Low DMARC Compliance"
    description := "Only " ++ fmtPct q ++
      "% of emails are fully compliant. Consider strengthening your DMARC policy." }

def suspiciousIPThreat (i : IPInfo) : Threat :=
  { level := "high"
    title := "Suspicious IP: " ++ optStr i.ip
    description := "Low compliance rate (" ++ fmtPct i.compliance_rate ++
      "%) with " ++ toString i.count ++ " messages. Potential spoofing attempt." }

def noThreatsThreat : Threat :=
  { level := "success"
    title := "No Major Threats Detected"
    description := "Your email authentication is working well!" }

/-- `_identify_threats(ip_list, dmarc_compliance)` (lines 368-396).
`dmarc_compliance` is in hundredths of a percent, so the source's
thresholds `80` and `50` are `8000` and `5000` here. -/
def identifyThreats (ip_list : List IPInfo) (dmarc_compliance : Int) : List Threat :=
  let threats : List Threat := []
  let threats :=
    if dmarc_compliance < 8000 then threats ++ [lowComplianceThreat dmarc_compliance]
    else threats
  let threats :=
    (ip_list.take 10).foldl
      (fun ts i =>
        if i.compliance_rate < 5000 ∧ 10 < i.count then ts ++ [suspiciousIPThreat i]
        else ts)
      threats
  if threats.isEmpty then [noThreatsThreat] else threats

/-! ## The analytics result -/

structure MechStats where
  pass : Int
  fail : Int
  pass_rate : Int
deriving DecidableEq, Repr

structure AuthStats where
  dkim : MechStats
  spf : MechStats
  dmarc_compliance : Int
deriving DecidableEq, Repr

structure Summary where
  total_messages : Int
  total_reports : Nat
  domains : List (Option String)
  date_start : Option String
  date_end : Option String
deriving DecidableEq, Repr

structure Analytics where
  summary : Summary
  authentication : AuthStats
  dispositions : List (Option String × Int)
  source_organizations : List (Option String × Int)
  top_sources : List IPInfo
  timeline : List TimelineEntry
  threats : List Threat
deriving DecidableEq, Repr

/-- `strftime(...) if date_range['earliest'] else None`: Python truthiness
makes both `None` and timestamp `0` render as `None`. -/
def pyDateOpt : Option Int → Option String
  | none => none
  | some t => if t = 0 then none else some (dateStr t)

/-- `_generate_analytics(reports)` (lines 208-366). -/
def generateAnalytics (resolver : Option String → Option String)
    (reports : List Report) : Analytics :=
  let st := aggState reports
  let ip_list := sortByCountDesc (ipInfoList resolver reports)
  let timeline := (sortDaily st.daily_stats).map mkTimelineEntry
  let dkim_pass_rate :=
    if 0 < st.total_messages then pctTimes100 st.dkim_pass st.total_messages else 0
  let spf_pass_rate :=
    if 0 < st.total_messages then pctTimes100 st.spf_pass st.total_messages else 0
  let dmarc_compliance :=
    if 0 < st.total_messages then pctTimes100 st.dmarc_pass st.total_messages else 0
  { summary :=
      { total_messages := st.total_messages
        total_reports := reports.length
        domains := st.domains
        date_start := pyDateOpt st.earliest
        date_end := pyDateOpt st.latest }
    authentication :=
      { dkim := { pass := st.dkim_pass, fail := st.dkim_fail, pass_rate := dkim_pass_rate }
        spf := { pass := st.spf_pass, fail := st.spf_fail, pass_rate := spf_pass_rate }
        dmarc_compliance := dmarc_compliance }
    dispositions := st.dispositions
    source_organizations := st.source_orgs
    top_sources := ip_list.take 20
    timeline := timeline
    threats := identifyThreats ip_list dmarc_compliance }

/-! ## Batch entry point (`process_files`) -/

/-- The result dict of `process_files`: a failure dict carries the `error`
message, the optional `parse_errors` key (present only in the
nothing-parsed case) and `files_processed = 0`; a success dict carries the
analytics, `files_processed` and `parse_errors`. -/
inductive ProcResult where
  | failure (error : String) (parse_errors : Option (List String)) (files_processed : Nat)
  | success (analytics : Analytics) (files_processed : Nat) (parse_errors : List String)
deriving DecidableEq, Repr

/-- `process_files(file_paths, session_dir)` (lines 19-73).  The model is a
total function, mirroring the fact that the source catches every exception
(its outer `except` folds an unexpected exception into the same failure
shape; the model has no unexpected exceptions). -/
def processFiles (resolver : Option String → Option String)
    (inputs dir0 : List (String × FileContent)) : ProcResult :=
  let xmlFiles := batchXmlFiles inputs dir0
  if xmlFiles.isEmpty then
    .failure "No valid DMARC XML files found" none 0
  else
    let reports := reportsOf xmlFiles
    if reports.isEmpty then
      .failure "No valid DMARC reports could be parsed" (some (parseErrorsOf xmlFiles)) 0
    else
      .success (generateAnalytics resolver reports) reports.length (parseErrorsOf xmlFiles)

/-! ## Theorems -/

/-- Total message count of a batch of reports: the sum of `count` over all
records of all reports. -/
def recordsTotal (reports : List Report) : Int :=
  (reports.map (fun rep => (rep.records.map Record.count).sum)).sum

/-- The pass/fail counter invariant maintained by the accumulation pass. -/
def CountersInv (st : AggState) : Prop :=
  st.dkim_pass + st.dkim_fail = st.total_messages ∧
  st.spf_pass + st.spf_fail = st.total_messages ∧
  st.dmarc_pass + st.dmarc_fail = st.total_messages

lemma countersInv_processRecord (day : String) (st : AggState) (r : Record)
    (h : CountersInv st) : CountersInv (processRecord day st r) := by
  obtain ⟨h1, h2, h3⟩ := h
  refine ⟨?_, ?_, ?_⟩ <;> simp only [processRecord] <;> split <;> omega

lemma countersInv_foldRecords (day : String) (l : List Record) (st : AggState)
    (h : CountersInv st) : CountersInv (l.foldl (processRecord day) st) := by
  induction l generalizing st with
  | nil => exact h
  | cons r t ih => exact ih _ (countersInv_processRecord day st r h)

lemma countersInv_processReport (st : AggState) (rep : Report)
    (h : CountersInv st) : CountersInv (processReport st rep) := by
  refine countersInv_foldRecords _ _ _ ?_
  exact h

lemma countersInv_aggState (reports : List Report) : CountersInv (aggState reports) := by
  have base : CountersInv initState := by
    refine ⟨rfl, rfl, rfl⟩
  rw [aggState]
  generalize initState = st at base ⊢
  induction reports generalizing st with
  | nil => exact base
  | cons rep t ih => exact ih _ (countersInv_processReport st rep base)

lemma processRecord_total (day : String) (st : AggState) (r : Record) :
    (processRecord day st r).total_messages = st.total_messages + r.count := rfl

lemma foldRecords_total (day : String) (l : List Record) (st : AggState) :
    (l.foldl (processRecord day) st).total_messages
      = st.total_messages + (l.map Record.count).sum := by
  induction l generalizing st with
  | nil => simp
  | cons r t ih =>
    simp only [List.foldl_cons, List.map_cons, List.sum_cons, ih, processRecord_total]
    ring

lemma processReport_total (st : AggState) (rep : Report) :
    (processReport st rep).total_messages
      = st.total_messages + (rep.records.map Record.count).sum := by
  simp only [processReport, foldRecords_total]

lemma aggState_total (reports : List Report) :
    (aggState reports).total_messages = recordsTotal reports := by
  rw [aggState, recordsTotal]
  have h : ∀ (l : List Report) (st : AggState),
      (l.foldl processReport st).total_messages
        = st.total_messages + (l.map (fun rep => (rep.records.map Record.count).sum)).sum := by
    intro l
    induction l with
    | nil => intro st; simp
    | cons rep t ih =>
      intro st
      simp only [List.foldl_cons, List.map_cons, List.sum_cons, ih, processReport_total]
      ring
  simp [h, initState]

/-- C1: for every list of parsed reports (and any hostname resolver), the
analytics satisfy `dkim_pass + dkim_fail = total_messages`, the same for SPF,
and `dmarc_pass + dmarc_fail = total_messages` (on the DMARC counters of the
accumulation state, which feed `dmarc_compliance`), where `total_messages` is
the sum of the `count` field over all records of all reports. -/
theorem c1_pass_fail_totals (resolver : Option String → Option String)
    (reports : List Report) :
    let a := generateAnalytics resolver reports
    a.authentication.dkim.pass + a.authentication.dkim.fail = a.summary.total_messages ∧
    a.authentication.spf.pass + a.authentication.spf.fail = a.summary.total_messages ∧
    (aggState reports).dmarc_pass + (aggState reports).dmarc_fail
      = a.summary.total_messages ∧
    a.summary.total_messages = recordsTotal reports := by
  intro a
  obtain ⟨h1, h2, h3⟩ := countersInv_aggState reports
  refine ⟨h1, h2, h3, aggState_total reports⟩

lemma lookupD_updAssoc {κ ν : Type} [DecidableEq κ]
    (m : List (κ × ν)) (k : κ) (d : ν) (f : ν → ν) :
    lookupD (updAssoc m k d f) k d = f (lookupD m k d) := by
  induction m with
  | nil => simp [updAssoc, lookupD]
  | cons p rest ih =>
    obtain ⟨k', v⟩ := p
    by_cases h : k' = k
    · simp [updAssoc, lookupD, h]
    · simp only [updAssoc, if_neg h, lookupD]
      exact ih

/-- The spec's DMARC-compliance rule for a record: both DKIM and SPF are
exactly the string `pass`.  Modelled from the spec wording to compare with
the source's condition. -/
def dmarcCompliant (r : Record) : Prop :=
  r.dkim = some "pass" ∧ r.spf = some "pass"

instance (r : Record) : Decidable (dmarcCompliant r) :=
  inferInstanceAs (Decidable (_ ∧ _))

/-- C2: aggregating one record adds its count to `dmarc_pass` iff the
record's dkim and spf fields are both exactly `pass`, and to `dmarc_fail`
otherwise; the same rule drives the per-IP and per-day `dmarc_pass` tallies. -/
theorem c2_dmarc_pass_iff_both_pass (day : String) (st : AggState) (r : Record) :
    let st' := processRecord day st r
    st'.dmarc_pass = st.dmarc_pass + (if dmarcCompliant r then r.count else 0) ∧
    st'.dmarc_fail = st.dmarc_fail + (if dmarcCompliant r then 0 else r.count) ∧
    (lookupD st'.ip_data r.source_ip ⟨0, 0, 0, 0⟩).dmarc_pass
      = (lookupD st.ip_data r.source_ip ⟨0, 0, 0, 0⟩).dmarc_pass
        + (if dmarcCompliant r then r.count else 0) ∧
    (lookupD st'.daily_stats day ⟨0, 0, 0, 0⟩).dmarc_pass
      = (lookupD st.daily_stats day ⟨0, 0, 0, 0⟩).dmarc_pass
        + (if dmarcCompliant r then r.count else 0) := by
  intro st'
  by_cases h : dmarcCompliant r
  · obtain ⟨h1, h2⟩ := h
    have hc : dmarcCompliant r := ⟨h1, h2⟩
    refine ⟨?_, ?_, ?_, ?_⟩ <;>
      simp [st', processRecord, lookupD_updAssoc, h1, h2, if_pos hc]
  · have hbf : (r.dkim == some "pass" && r.spf == some "pass") = false := by
      rw [Bool.eq_false_iff]
      intro hh
      refine h ?_
      simpa [dmarcCompliant] using hh
    refine ⟨?_, ?_, ?_, ?_⟩ <;>
      simp [st', processRecord, lookupD_updAssoc, hbf, if_neg h]

/-- C3: `process_files` is total (the model of the outer `try/except` that
prevents any exception escaping) and its result is exactly one of: the
no-XML-files failure, the nothing-parsed failure (both with a non-empty
error message, `files_processed = 0`, occurring precisely when the batch
yields no XML files resp. no parsed reports), or a success carrying the
analytics, `files_processed` and the per-file parse-error messages. -/
theorem c3_result_shape (resolver : Option String → Option String)
    (inputs dir0 : List (String × FileContent)) :
    let xmls := batchXmlFiles inputs dir0
    (processFiles resolver inputs dir0
        = ProcResult.failure "No valid DMARC XML files found" none 0 ∧
      "No valid DMARC XML files found".isEmpty = false ∧ xmls = []) ∨
    (processFiles resolver inputs dir0
        = ProcResult.failure "No valid DMARC reports could be parsed"
            (some (parseErrorsOf xmls)) 0 ∧
      "No valid DMARC reports could be parsed".isEmpty = false ∧
      xmls.isEmpty = false ∧ reportsOf xmls = []) ∨
    (processFiles resolver inputs dir0
        = ProcResult.success (generateAnalytics resolver (reportsOf xmls))
            (reportsOf xmls).length (parseErrorsOf xmls) ∧
      xmls.isEmpty = false ∧ (reportsOf xmls).isEmpty = false) := by
  intro xmls
  by_cases hx : xmls.isEmpty
  · left
    refine ⟨?_, by decide, List.isEmpty_iff.mp hx⟩
    simp only [processFiles, hx]
    rfl
  · by_cases hr : (reportsOf xmls).isEmpty
    · right; left
      refine ⟨?_, by decide, Bool.eq_false_iff.mpr hx, List.isEmpty_iff.mp hr⟩
      simp only [processFiles]
      rw [if_neg (by simpa using hx), if_pos hr]
    · right; right
      refine ⟨?_, Bool.eq_false_iff.mpr hx, Bool.eq_false_iff.mpr hr⟩
      simp only [processFiles]
      rw [if_neg (by simpa using hx), if_neg (by simpa using hr)]

lemma mem_insertByCount {x y : IPInfo} {l : List IPInfo} :
    y ∈ insertByCount x l ↔ y = x ∨ y ∈ l := by
  induction l with
  | nil => simp [insertByCount]
  | cons z t ih =>
    by_cases h : x.count < z.count
    · simp [insertByCount, h, ih]
      tauto
    · simp [insertByCount, h, ih]

lemma mem_sortByCountDesc {y : IPInfo} {l : List IPInfo} :
    y ∈ sortByCountDesc l ↔ y ∈ l := by
  induction l with
  | nil => simp [sortByCountDesc]
  | cons x t ih => simp [sortByCountDesc, mem_insertByCount, ih]

lemma mem_insertByDate {x y : String × DayStats} {l : List (String × DayStats)} :
    y ∈ insertByDate x l ↔ y = x ∨ y ∈ l := by
  induction l with
  | nil => simp [insertByDate]
  | cons z t ih =>
    by_cases h : x.1 < z.1
    · simp [insertByDate, h, ih]
    · simp [insertByDate, h, ih]
      tauto

lemma mem_sortDaily {y : String × DayStats} {l : List (String × DayStats)} :
    y ∈ sortDaily l ↔ y ∈ l := by
  induction l with
  | nil => simp [sortDaily]
  | cons x t ih => simp [sortDaily, mem_insertByDate, ih]

/-- The scaled-integer percentage agrees with the spec's "divide, times 100,
round to 2 decimal places" on exact rationals, whenever the denominator is
positive. -/
lemma pctTimes100_eq_specRound2 (p t : Int) (ht : 0 < t) :
    (pctTimes100 p t : ℚ) / 100 = specRound2 ((p : ℚ) / (t : ℚ) * 100) := by
  have htq : (t : ℚ) ≠ 0 := by
    exact_mod_cast ht.ne'
  unfold specRound2
  congr 1
  have key : (p : ℚ) / (t : ℚ) * 100 * 100 + 1 / 2
      = ((20000 * p + t : ℤ) : ℚ) / ((2 * t : ℤ) : ℚ) := by
    push_cast
    field_simp
    ring
  have hnat : ((2 * t : ℤ) : ℚ) = (((2 * t).toNat : ℕ) : ℚ) := by
    norm_cast
    omega
  rw [round_eq, key, hnat, Rat.floor_intCast_div_natCast,
    Int.toNat_of_nonneg (show (0 : ℤ) ≤ 2 * t by omega)]
  rfl

/-- C4: every per-IP and per-day `compliance_rate` equals
`dmarc_pass / count * 100` rounded to 2 decimal places when the count is
positive and is exactly 0 otherwise (same guard for the overall rates), and
the scaled value agrees with the spec's rational rounding formula — no
division by zero is ever performed (the zero-denominator case never reaches
`pctTimes100`). -/
theorem c4_compliance_rate_guarded (resolver : Option String → Option String)
    (reports : List Report) :
    let a := generateAnalytics resolver reports
    a.top_sources.map IPInfo.compliance_rate
      = a.top_sources.map
          (fun e => if 0 < e.count then pctTimes100 e.dmarc_pass e.count else 0) ∧
    a.timeline.map TimelineEntry.compliance_rate
      = a.timeline.map
          (fun e => if 0 < e.total then pctTimes100 e.dmarc_pass e.total else 0) ∧
    a.authentication.dmarc_compliance
      = (if 0 < a.summary.total_messages then
          pctTimes100 (aggState reports).dmarc_pass a.summary.total_messages else 0) ∧
    a.authentication.dkim.pass_rate
      = (if 0 < a.summary.total_messages then
          pctTimes100 a.authentication.dkim.pass a.summary.total_messages else 0) ∧
    a.authentication.spf.pass_rate
      = (if 0 < a.summary.total_messages then
          pctTimes100 a.authentication.spf.pass a.summary.total_messages else 0) ∧
    ∀ p t : Int, 0 < t →
      (pctTimes100 p t : ℚ) / 100 = specRound2 ((p : ℚ) / (t : ℚ) * 100) := by
  intro a
  refine ⟨?_, ?_, rfl, rfl, rfl, fun p t ht => pctTimes100_eq_specRound2 p t ht⟩
  · refine List.map_congr_left ?_
    intro e he
    have he' : e ∈ sortByCountDesc (ipInfoList resolver reports) :=
      (List.take_sublist 20 _).mem he
    have he'' : e ∈ ipInfoList resolver reports := mem_sortByCountDesc.mp he'
    obtain ⟨p, _, rfl⟩ := List.mem_map.mp he''
    simp [mkIPInfo]
  · refine List.map_congr_left ?_
    intro e he
    obtain ⟨p, _, rfl⟩ := List.mem_map.mp he
    simp [mkTimelineEntry]

/-- C4 witness: the rounding bridge applied at the concrete denominator 3,
with its positivity hypothesis discharged. -/
theorem c4_compliance_rate_guarded_witness :
    (0 : ℤ) < 3 ∧
    (pctTimes100 1 3 : ℚ) / 100 = specRound2 ((1 : ℚ) / (3 : ℚ) * 100) :=
  ⟨by decide,
   (c4_compliance_rate_guarded (fun _ => none) []).2.2.2.2.2 1 3 (by decide)⟩

/-! ### C5: shape of `top_sources` -/

/-- All source IPs of a batch, in scanning order (with repetitions). -/
def allIps (reports : List Report) : List (Option String) :=
  (reports.map (fun rep => rep.records.map Record.source_ip)).flatten

lemma length_insertByCount (x : IPInfo) (l : List IPInfo) :
    (insertByCount x l).length = l.length + 1 := by
  induction l with
  | nil => rfl
  | cons y t ih =>
    by_cases h : x.count < y.count <;> simp [insertByCount, h, ih]

lemma length_sortByCountDesc (l : List IPInfo) :
    (sortByCountDesc l).length = l.length := by
  induction l with
  | nil => rfl
  | cons x t ih => simp [sortByCountDesc, length_insertByCount, ih]

lemma pairwise_insertByCount {x : IPInfo} {l : List IPInfo}
    (h : l.Pairwise (fun a b => b.count ≤ a.count)) :
    (insertByCount x l).Pairwise (fun a b => b.count ≤ a.count) := by
  induction l with
  | nil => simp [insertByCount]
  | cons y t ih =>
    rw [List.pairwise_cons] at h
    obtain ⟨hy, ht⟩ := h
    by_cases hc : x.count < y.count
    · simp only [insertByCount, if_pos hc]
      rw [List.pairwise_cons]
      refine ⟨?_, ih ht⟩
      intro z hz
      rcases mem_insertByCount.mp hz with rfl | hz'
      · omega
      · exact hy z hz'
    · simp only [insertByCount, if_neg hc]
      rw [List.pairwise_cons]
      refine ⟨?_, List.pairwise_cons.mpr ⟨hy, ht⟩⟩
      intro z hz
      rcases List.mem_cons.mp hz with rfl | hz'
      · omega
      · have := hy z hz'
        omega

lemma pairwise_sortByCountDesc (l : List IPInfo) :
    (sortByCountDesc l).Pairwise (fun a b => b.count ≤ a.count) := by
  induction l with
  | nil => simp [sortByCountDesc]
  | cons x t ih => exact pairwise_insertByCount ih

lemma filter_insertByCount (c : Int) (x : IPInfo) (l : List IPInfo) :
    (insertByCount x l).filter (fun e => e.count == c)
      = if x.count = c then x :: l.filter (fun e => e.count == c)
        else l.filter (fun e => e.count == c) := by
  induction l with
  | nil =>
    by_cases hx : x.count = c <;> simp [insertByCount, hx]
  | cons y t ih =>
    by_cases hc : x.count < y.count
    · simp only [insertByCount, if_pos hc, List.filter_cons]
      by_cases hyc : y.count = c
      · have hxc : ¬ x.count = c := by omega
        simp [hyc, hxc, ih]
      · simp only [ih]
        by_cases hxc : x.count = c <;> simp [hxc, hyc]
    · simp only [insertByCount, if_neg hc, List.filter_cons]
      by_cases hxc : x.count = c <;> simp [hxc]

/-- Stability of the sort: for every count value, the entries carrying that
count appear in the sorted list in exactly their original order. -/
lemma filter_sortByCountDesc (c : Int) (l : List IPInfo) :
    (sortByCountDesc l).filter (fun e => e.count == c)
      = l.filter (fun e => e.count == c) := by
  induction l with
  | nil => rfl
  | cons x t ih =>
    simp only [sortByCountDesc, filter_insertByCount, ih, List.filter_cons]
    by_cases hx : x.count = c <;> simp [hx]

lemma fst_updAssoc_mem {κ ν : Type} [DecidableEq κ]
    (m : List (κ × ν)) (k a : κ) (d : ν) (f : ν → ν) :
    a ∈ (updAssoc m k d f).map Prod.fst ↔ a ∈ m.map Prod.fst ∨ a = k := by
  induction m with
  | nil => simp [updAssoc]
  | cons p rest ih =>
    obtain ⟨k', v⟩ := p
    by_cases h : k' = k
    · subst h
      simp [updAssoc]
      tauto
    · simp [updAssoc, h, ih]
      tauto

lemma nodup_fst_updAssoc {κ ν : Type} [DecidableEq κ]
    (m : List (κ × ν)) (k : κ) (d : ν) (f : ν → ν)
    (h : (m.map Prod.fst).Nodup) :
    ((updAssoc m k d f).map Prod.fst).Nodup := by
  induction m with
  | nil => simp [updAssoc]
  | cons p rest ih =>
    obtain ⟨k', v⟩ := p
    rw [List.map_cons, List.nodup_cons] at h
    obtain ⟨h1, h2⟩ := h
    by_cases hk : k' = k
    · subst hk
      rw [show updAssoc ((k', v) :: rest) k' d f = (k', f v) :: rest by simp [updAssoc]]
      rw [List.map_cons, List.nodup_cons]
      exact ⟨h1, h2⟩
    · rw [show updAssoc ((k', v) :: rest) k d f = (k', v) :: updAssoc rest k d f by
        simp [updAssoc, hk]]
      rw [List.map_cons, List.nodup_cons]
      refine ⟨?_, ih h2⟩
      rw [fst_updAssoc_mem]
      push_neg
      exact ⟨h1, hk⟩

lemma ipKeys_foldRecords (day : String) (l : List Record) (st : AggState) (a : Option String) :
    a ∈ ((l.foldl (processRecord day) st).ip_data).map Prod.fst
      ↔ a ∈ st.ip_data.map Prod.fst ∨ a ∈ l.map Record.source_ip := by
  induction l generalizing st with
  | nil => simp
  | cons r t ih =>
    rw [List.foldl_cons, ih]
    have : a ∈ ((processRecord day st r).ip_data).map Prod.fst
        ↔ a ∈ st.ip_data.map Prod.fst ∨ a = r.source_ip := by
      simp only [processRecord]
      exact fst_updAssoc_mem _ _ _ _ _
    rw [this]
    simp
    tauto

lemma ipKeys_processReport (st : AggState) (rep : Report) (a : Option String) :
    a ∈ ((processReport st rep).ip_data).map Prod.fst
      ↔ a ∈ st.ip_data.map Prod.fst ∨ a ∈ rep.records.map Record.source_ip := by
  simp only [processReport]
  exact ipKeys_foldRecords _ _ _ _

lemma allIps_cons (rep : Report) (t : List Report) :
    allIps (rep :: t) = rep.records.map Record.source_ip ++ allIps t := by
  simp [allIps]

lemma ipKeys_aggState (reports : List Report) (a : Option String) :
    a ∈ ((aggState reports).ip_data).map Prod.fst ↔ a ∈ allIps reports := by
  rw [aggState]
  have main : ∀ (l : List Report) (st : AggState),
      a ∈ ((l.foldl processReport st).ip_data).map Prod.fst
        ↔ a ∈ st.ip_data.map Prod.fst ∨ a ∈ allIps l := by
    intro l
    induction l with
    | nil => intro st; simp [allIps]
    | cons rep t ih =>
      intro st
      rw [List.foldl_cons, ih, ipKeys_processReport, allIps_cons, List.mem_append]
      tauto
  rw [main]
  simp [initState]

lemma nodup_ipKeys_foldRecords (day : String) (l : List Record) (st : AggState)
    (h : (st.ip_data.map Prod.fst).Nodup) :
    (((l.foldl (processRecord day) st).ip_data).map Prod.fst).Nodup := by
  induction l generalizing st with
  | nil => exact h
  | cons r t ih =>
    rw [List.foldl_cons]
    refine ih _ ?_
    simp only [processRecord]
    exact nodup_fst_updAssoc _ _ _ _ h

lemma nodup_ipKeys_aggState (reports : List Report) :
    (((aggState reports).ip_data).map Prod.fst).Nodup := by
  rw [aggState]
  have main : ∀ (l : List Report) (st : AggState),
      (st.ip_data.map Prod.fst).Nodup →
      (((l.foldl processReport st).ip_data).map Prod.fst).Nodup := by
    intro l
    induction l with
    | nil => intro st h; exact h
    | cons rep t ih =>
      intro st h
      rw [List.foldl_cons]
      refine ih _ ?_
      simp only [processReport]
      exact nodup_ipKeys_foldRecords _ _ _ h
  refine main _ _ ?_
  simp [initState]

lemma ipData_length_eq_distinct (reports : List Report) :
    ((aggState reports).ip_data).length = (allIps reports).dedup.length := by
  have hkeys := nodup_ipKeys_aggState reports
  have hlen1 : ((aggState reports).ip_data).length
      = (((aggState reports).ip_data).map Prod.fst).length :=
    (List.length_map _ _).symm
  have hde : (((aggState reports).ip_data).map Prod.fst).dedup
      = ((aggState reports).ip_data).map Prod.fst :=
    List.dedup_eq_self.mpr hkeys
  have hfin : (((aggState reports).ip_data).map Prod.fst).toFinset
      = (allIps reports).toFinset := by
    ext a
    simp only [List.mem_toFinset]
    exact ipKeys_aggState reports a
  calc ((aggState reports).ip_data).length
      = (((aggState reports).ip_data).map Prod.fst).length := hlen1
    _ = (((aggState reports).ip_data).map Prod.fst).dedup.length := by rw [hde]
    _ = (((aggState reports).ip_data).map Prod.fst).toFinset.card :=
        (List.card_toFinset _).symm
    _ = (allIps reports).toFinset.card := by rw [hfin]
    _ = (allIps reports).dedup.length := List.card_toFinset _

/-- C5: `top_sources` is the first 20 entries of the stable descending sort
of the per-IP list (which is in first-encounter order); its length is
`min 20 (number of distinct source IPs)`; it is sorted descending by count;
and the sort is stable — entries of any given count keep their original
relative order. -/
theorem c5_top_sources_shape (resolver : Option String → Option String)
    (reports : List Report) :
    let entries := ipInfoList resolver reports
    let a := generateAnalytics resolver reports
    a.top_sources = (sortByCountDesc entries).take 20 ∧
    a.top_sources.length = min 20 (allIps reports).dedup.length ∧
    a.top_sources.Pairwise (fun x y => y.count ≤ x.count) ∧
    ∀ c : Int,
      (sortByCountDesc entries).filter (fun e => e.count == c)
        = entries.filter (fun e => e.count == c) := by
  intro entries a
  refine ⟨rfl, ?_, ?_, fun c => filter_sortByCountDesc c entries⟩
  · show ((sortByCountDesc entries).take 20).length = _
    rw [List.length_take 20 _, length_sortByCountDesc]
    have : entries.length = ((aggState reports).ip_data).length :=
      List.length_map _ _
    rw [this, ipData_length_eq_distinct]
  · show ((sortByCountDesc entries).take 20).Pairwise _
    exact (pairwise_sortByCountDesc entries).sublist (List.take_sublist 20 _)

/-! ### C8: threat heuristics -/

/-- Rule 1: one warning finding iff overall compliance is below 80%. -/
def rule1Threats (q : Int) : List Threat :=
  if q < 8000 then [lowComplianceThreat q] else []

/-- Rule 2: one high finding per qualifying source among the top 10 by
volume, in order. -/
def rule2Threats (ip_list : List IPInfo) : List Threat :=
  ((ip_list.take 10).filter
      (fun i => decide (i.compliance_rate < 5000 ∧ 10 < i.count))).map
    suspiciousIPThreat

lemma foldl_suspicious (l : List IPInfo) (init : List Threat) :
    l.foldl
        (fun ts i =>
          if i.compliance_rate < 5000 ∧ 10 < i.count then ts ++ [suspiciousIPThreat i]
          else ts)
        init
      = init ++
        (l.filter (fun i => decide (i.compliance_rate < 5000 ∧ 10 < i.count))).map
          suspiciousIPThreat := by
  induction l generalizing init with
  | nil => simp
  | cons i t ih =>
    rw [List.foldl_cons]
    by_cases h : i.compliance_rate < 5000 ∧ 10 < i.count
    · rw [if_pos h, ih, List.filter_cons]
      simp [h]
    · rw [if_neg h, ih, List.filter_cons]
      simp [h]

/-- C8: the threat list is exactly rule 1's finding (iff overall compliance
is below 80%), followed by rule 2's findings (one per source among the top
10 by volume with compliance below 50% and more than 10 messages, in order),
followed by the success finding iff rules 1-2 produced nothing. -/
theorem c8_threats_emission_order (resolver : Option String → Option String)
    (reports : List Report) :
    let a := generateAnalytics resolver reports
    let ipl := sortByCountDesc (ipInfoList resolver reports)
    let q := a.authentication.dmarc_compliance
    a.threats
      = rule1Threats q ++ rule2Threats ipl ++
          (if (rule1Threats q ++ rule2Threats ipl).isEmpty then [noThreatsThreat]
           else []) := by
  intro a ipl q
  show identifyThreats ipl q = _
  rw [identifyThreats, foldl_suspicious]
  have hr1 : (if q < 8000 then ([] : List Threat) ++ [lowComplianceThreat q] else [])
      = rule1Threats q := by
    rw [rule1Threats]
    by_cases h : q < 8000
    · rw [if_pos h, if_pos h, List.nil_append]
    · rw [if_neg h, if_neg h]
  rw [hr1]
  rw [show ((ipl.take 10).filter
        (fun i => decide (i.compliance_rate < 5000 ∧ 10 < i.count))).map
        suspiciousIPThreat = rule2Threats ipl from rfl]
  by_cases he : (rule1Threats q ++ rule2Threats ipl).isEmpty
  · rw [if_pos he, if_pos he, List.isEmpty_iff.mp he]
    rfl
  · rw [if_neg he, if_neg he, List.append_nil]

/-! ### Concrete sample documents (namespaced and unprefixed variants) -/

/-- Build a namespaced element. -/
def nsElem (t : String) (tx : Option String) (ch : List Xml) : Xml :=
  Xml.elem (nsTag t) tx ch

/-- An optional namespaced leaf child: present iff the text is given. -/
def optNsChild (t : String) : Option String → List Xml
  | some tx => [Xml.elem (nsTag t) (some tx) []]
  | none => []

/-- A namespaced `record` element whose six fields are each optionally
present. -/
def mkNsRecord (ip cnt disp dk sp hf : Option String) : Xml :=
  Xml.elem (nsTag "record") none
    [Xml.elem (nsTag "row") none
      (optNsChild "source_ip" ip ++ optNsChild "count" cnt ++
        [Xml.elem (nsTag "policy_evaluated") none
          (optNsChild "disposition" disp ++ optNsChild "dkim" dk ++
            optNsChild "spf" sp)]),
     Xml.elem (nsTag "identifiers") none (optNsChild "header_from" hf)]

/-- A fully-populated namespaced record element. -/
def nsRecordElem (ip cnt disp dk sp hf : String) : Xml :=
  mkNsRecord (some ip) (some cnt) (some disp) (some dk) (some sp) (some hf)

/-- A namespaced report document around the given record elements. -/
def nsDoc (records : List Xml) : Xml :=
  nsElem "feedback" none
    ([nsElem "report_metadata" none
        [nsElem "org_name" (some "Test Org") [],
         nsElem "report_id" (some "test-123") [],
         nsElem "date_range" none
           [nsElem "begin" (some "1640000000") [],
            nsElem "end" (some "1640086400") []]],
      nsElem "policy_published" none
        [nsElem "domain" (some "example.com") [],
         nsElem "p" (some "none") []]] ++ records)

/-- An unprefixed document with no `report_metadata` element. -/
def plainNoMetaDoc : Xml :=
  Xml.elem "feedback" none
    [Xml.elem "policy_published" none
      [Xml.elem "domain" (some "example.com") []]]

/-- A namespaced document with no `report_metadata` element. -/
def nsNoMetaDoc : Xml :=
  nsElem "feedback" none
    [nsElem "policy_published" none
      [nsElem "domain" (some "example.com") []]]

/-- A namespaced record element with no `row` sub-element. -/
def recNoRow : Xml :=
  Xml.elem (nsTag "record") none
    [Xml.elem (nsTag "identifiers") none
      [Xml.elem (nsTag "header_from") (some "example.com") []]]

/-! ### C6: missing `report_metadata` -/

/-- Whether a collected file yields no report (a `None` result or an
exception) in the parse loop. -/
def isNoReport (f : String × FileContent) : Bool :=
  match fileReport f with
  | .ok (some _) => false
  | _ => true

lemma reportsOf_skip (f : String × FileContent)
    (l₁ l₂ : List (String × FileContent)) (h : isNoReport f = true) :
    reportsOf (l₁ ++ f :: l₂) = reportsOf (l₁ ++ l₂) := by
  unfold reportsOf
  rw [List.filterMap_append, List.filterMap_append, List.filterMap_cons]
  unfold isNoReport at h
  cases hf : fileReport f with
  | ok o =>
    rw [hf] at h
    cases o with
    | none => rfl
    | some r => simp at h
  | error e => rfl

/-- C6 counterexample: an unprefixed document with no `report_metadata`
element does not parse to "no report without raising": the namespaced
fallback lookup raises (`SyntaxError`, an empty prefix map), so the parse
fails with an exception instead of logging a warning and returning `None`. -/
theorem c6_counterexample_plain_doc_raises :
    plainNoMetaDoc.findChild "report_metadata" = none ∧
    plainNoMetaDoc.findChild (nsTag "report_metadata") = none ∧
    parseDmarcXml plainNoMetaDoc = Except.error syntaxErrMsg :=
  ⟨rfl, rfl, rfl⟩

/-- C6 as amended: a namespaced report file whose `report_metadata` is absent
parses to no report without raising (the logged-warning path); an unprefixed
file whose `report_metadata` is absent raises from the namespaced fallback
lookup instead; in both cases the file contributes no report to the
aggregation, wherever it occurs in the batch, and the rest of the batch is
unaffected. -/
theorem c6_missing_metadata (root : Xml)
    (h2 : truthyElem (root.findChild "report_metadata") = false)
    (h3 : root.findChild (nsTag "report_metadata") = none) :
    (strStartsWith root.tag "\x7b" = true → parseDmarcXml root = Except.ok none) ∧
    (strStartsWith root.tag "\x7b" = false →
      parseDmarcXml root = Except.error syntaxErrMsg) ∧
    ∀ (f : String × FileContent) (l₁ l₂ : List (String × FileContent)),
      isNoReport f = true → reportsOf (l₁ ++ f :: l₂) = reportsOf (l₁ ++ l₂) := by
  refine ⟨?_, ?_, reportsOf_skip⟩
  · intro h1
    simp only [parseDmarcXml, findDual, h1, h2, h3, Bool.false_eq_true, if_false,
      if_true]
    rfl
  · intro h1
    simp only [parseDmarcXml, findDual, h1, h2, Bool.false_eq_true, if_false]
    rfl

/-- C6 witness: the amended theorem applied to the concrete namespaced and
unprefixed no-metadata documents, and to a concrete batch in which the bad
file sits between two entries. -/
theorem c6_missing_metadata_witness :
    (parseDmarcXml nsNoMetaDoc = Except.ok none) ∧
    (parseDmarcXml plainNoMetaDoc = Except.error syntaxErrMsg) ∧
    reportsOf [("a.xml", FileContent.xmlFile plainNoMetaDoc),
               ("b.xml", FileContent.opaqueBytes)]
      = reportsOf [("b.xml", FileContent.opaqueBytes)] :=
  ⟨(c6_missing_metadata nsNoMetaDoc (by rfl) (by rfl)).1 (by rfl),
   (c6_missing_metadata plainNoMetaDoc (by rfl) (by rfl)).2.1 (by rfl),
   (c6_missing_metadata plainNoMetaDoc (by rfl) (by rfl)).2.2
     ("a.xml", FileContent.xmlFile plainNoMetaDoc) [] [("b.xml", FileContent.opaqueBytes)]
     (by rfl)⟩

/-! ### C7: malformed records within a file -/

/-- C7 counterexample: a file whose first record lacks its `row` sub-element
aborts the parse of the whole file with an exception (`find_text(None, ...)`
raises `AttributeError`), even though the second record is well-formed and
parses on its own — individual records are not parsed independently. -/
theorem c7_counterexample_bad_record_aborts_file :
    parseDmarcXml (nsDoc [recNoRow,
        nsRecordElem "10.0.0.1" "7" "none" "pass" "pass" "example.com"])
      = Except.error attributeErrMsg ∧
    parseRecord true (nsRecordElem "10.0.0.1" "7" "none" "pass" "pass" "example.com")
      = Except.ok
          { source_ip := some "10.0.0.1", count := 7, disposition := some "none",
            dkim := some "pass", spf := some "pass",
            header_from := some "example.com" } :=
  ⟨rfl, rfl⟩

/-- C7 as amended: within a record of a namespaced report whose `row`,
`policy_evaluated` and `identifiers` elements are present, a missing numeric
`count` field defaults to 0 and missing text fields default to an absent
value; but a record missing its `row` sub-element raises `AttributeError`,
which aborts parsing of the entire file (the per-file `except` catches it),
rather than only skipping that record. -/
theorem c7_record_field_defaults (ip disp dk sp hf : Option String) :
    parseRecord true (mkNsRecord ip none disp dk sp hf)
      = Except.ok
          { source_ip := ip, count := 0, disposition := disp, dkim := dk,
            spf := sp, header_from := hf } ∧
    ∀ rec : Xml, truthyElem (rec.findChild "row") = false →
      rec.findChild (nsTag "row") = none →
      parseRecord true rec = Except.error attributeErrMsg := by
  constructor
  · rcases ip with _ | ip <;> rcases disp with _ | disp <;> rcases dk with _ | dk <;>
      rcases sp with _ | sp <;> rcases hf with _ | hf <;> rfl
  · intro rec h1 h2
    simp only [parseRecord, findDual, h1, h2, Bool.false_eq_true, if_false, if_true]
    rfl

/-- C7 witness: the amended theorem applied to a concrete record with all
text fields present but `count` absent, and to the concrete row-less record. -/
theorem c7_record_field_defaults_witness :
    parseRecord true (mkNsRecord (some "10.0.0.1") none (some "none")
        (some "pass") (some "pass") (some "example.com"))
      = Except.ok
          { source_ip := some "10.0.0.1", count := 0, disposition := some "none",
            dkim := some "pass", spf := some "pass",
            header_from := some "example.com" } ∧
    parseRecord true recNoRow = Except.error attributeErrMsg :=
  ⟨(c7_record_field_defaults (some "10.0.0.1") (some "none") (some "pass")
      (some "pass") (some "example.com")).1,
   (c7_record_field_defaults none none none none none).2 recNoRow (by rfl) (by rfl)⟩

/-! ### C9: suffix dispatch is case-sensitive -/

/-- A one-entry ZIP archive used to compare the two spellings. -/
def zipWithOneXml : FileContent :=
  FileContent.zipEntries
    [("r.xml", FileContent.xmlFile
        (nsDoc [nsRecordElem "10.0.0.1" "7" "none" "pass" "pass" "example.com"]))]

/-- C9 counterexample: a valid ZIP archive named `report.ZIP` is *not*
handled like `report.zip`: the uppercase spelling falls through every
`endswith` branch to the unknown-file-type branch and yields no files, while
the lowercase spelling extracts the archive and returns its XML file. -/
theorem c9_counterexample_uppercase_zip :
    extractFiles "report.ZIP" zipWithOneXml [] = ([], []) ∧
    extractFiles "report.zip" zipWithOneXml []
      = ([("r.xml", FileContent.xmlFile
            (nsDoc [nsRecordElem "10.0.0.1" "7" "none" "pass" "pass" "example.com"]))],
         [("r.xml", FileContent.xmlFile
            (nsDoc [nsRecordElem "10.0.0.1" "7" "none" "pass" "pass" "example.com"]))]) :=
  ⟨rfl, rfl⟩

/-- C9 as amended: the unwrapper's suffix dispatch is case-sensitive — only
the lowercase suffixes are recognised, and a file whose name ends in
`.ZIP`, `.Gz`, `.TAR` or `.XML` falls through to the unknown-file-type
branch, returning no files and leaving the directory untouched, whatever its
content is. -/
theorem c9_dispatch_case_sensitive (c : FileContent)
    (dir : List (String × FileContent)) :
    extractFiles "report.ZIP" c dir = ([], dir) ∧
    extractFiles "report.Gz" c dir = ([], dir) ∧
    extractFiles "report.TAR" c dir = ([], dir) ∧
    extractFiles "report.XML" c dir = ([], dir) := by
  refine ⟨?_, ?_, ?_, ?_⟩ <;>
    · rw [extractFiles.eq_def]
      simp +decide [basename, basenameAux, strEndsWith]

/-! ### C10: archive extraction rescans the whole session directory -/

/-- First sample XML file content (one record, count 7). -/
def xml7 : FileContent :=
  FileContent.xmlFile
    (nsDoc [nsRecordElem "10.0.0.1" "7" "none" "pass" "pass" "example.com"])

/-- Second sample XML file content (one record, count 5). -/
def xml5 : FileContent :=
  FileContent.xmlFile
    (nsDoc [nsRecordElem "10.0.0.2" "5" "none" "fail" "pass" "example.com"])

/-- The parsed report of `xml7`. -/
def rep7 : Report :=
  { org_name := some "Test Org", report_id := some "test-123",
    domain := some "example.com", policy := some "none",
    date_begin := 1640000000, date_end := 1640086400,
    records := [{ source_ip := some "10.0.0.1", count := 7,
                  disposition := some "none", dkim := some "pass",
                  spf := some "pass", header_from := some "example.com" }] }

/-- The parsed report of `xml5`. -/
def rep5 : Report :=
  { org_name := some "Test Org", report_id := some "test-123",
    domain := some "example.com", policy := some "none",
    date_begin := 1640000000, date_end := 1640086400,
    records := [{ source_ip := some "10.0.0.2", count := 5,
                  disposition := some "none", dkim := some "fail",
                  spf := some "pass", header_from := some "example.com" }] }

/-- C10: for `.zip`, `.tar` and `.tar.gz` inputs the unwrapper returns every
`.xml` file found anywhere in the extraction directory after extraction —
including files already deposited there — and consequently a batch of two
ZIP archives lists the first archive's XML file twice, parses it twice, and
counts its messages twice in the aggregation (7 + 7 + 5 = 19). -/
theorem c10_rescan_duplicates_earlier_xml
    (entries dir : List (String × FileContent)) :
    extractFiles "a.zip" (FileContent.zipEntries entries) dir
      = (findXmlFiles (putFiles dir entries), putFiles dir entries) ∧
    extractFiles "a.tar" (FileContent.tarEntries entries) dir
      = (findXmlFiles (putFiles dir entries), putFiles dir entries) ∧
    extractFiles "a.tar.gz" (FileContent.gzInner (FileContent.tarEntries entries)) dir
      = (findXmlFiles (putFiles (putFile dir ("a.tar", FileContent.tarEntries entries)) entries),
         putFiles (putFile dir ("a.tar", FileContent.tarEntries entries)) entries) ∧
    batchXmlFiles
        [("a.zip", FileContent.zipEntries [("r1.xml", xml7)]),
         ("b.zip", FileContent.zipEntries [("r2.xml", xml5)])] []
      = [("r1.xml", xml7), ("r1.xml", xml7), ("r2.xml", xml5)] ∧
    reportsOf (batchXmlFiles
        [("a.zip", FileContent.zipEntries [("r1.xml", xml7)]),
         ("b.zip", FileContent.zipEntries [("r2.xml", xml5)])] [])
      = [rep7, rep7, rep5] ∧
    (aggState [rep7, rep7, rep5]).total_messages = 19 :=
  ⟨rfl, rfl, rfl, rfl, rfl, rfl⟩

end DMARC
